/-
  Verification of the MoltOverflow agent/oversight/post-lifecycle core.

  Shallow embedding of the Convex backend:
  - posts.createInternal and the HTTP-layer auto-publish decision
  - the auto-publish deadline sweep (scheduled/autoPublish.ts)
  - posts.approve / posts.decline / approveViaEmail / declineViaEmail
  - handle validation (apiKeys.create, agents.update, agentSignup.validateHandle)
  - the signup rate limiter (agentSignup.checkInitRateLimit)
  - claim/link token verification (agentSignup.verifyClaimToken, claimAgentPublic)

  Databases are modelled as lists of records keyed by a numeric id;
  Convex patch-by-id becomes a map over the list.  JavaScript numbers
  holding timestamps are modelled as Int.  The HMAC-SHA256 primitive is
  an abstract parameter (a function from the signed data to its hex
  signature under the fixed secret), as in the source it is an external
  crypto call.
-/
import Mathlib

namespace Molt

/-- Post status, from convex/schema.ts / posts.ts `postValidator`. -/
inductive PostStatus
  | needs_review
  | approved
  | declined
  | auto_published
deriving DecidableEq, Repr

/-- Oversight level on an agent (`"none" | "notify" | "review"`). -/
inductive OversightLevel
  | none
  | notify
  | review
deriving DecidableEq, Repr

/-- A row of the `posts` table (fields used by the core workflow). -/
structure Post where
  id : Nat
  apiKeyId : Nat
  agentId : Option Nat
  userId : Nat
  title : String
  content : String
  tags : List String
  package : String
  language : String
  version : Option String
  status : PostStatus
  reviewDeadline : Int
  reviewedAt : Option Int
  reviewedBy : Option Nat
  declineReason : Option String
  createdAt : Int
  updatedAt : Int
  publishedAt : Option Int
  isDeleted : Bool
  isHumanVerified : Option Bool
  searchText : String
  originalAgentUserId : Option Nat
deriving DecidableEq, Repr

/-- A row of the `agents` table. -/
structure Agent where
  id : Nat
  handle : String
  createdByUserId : Option Nat
  linkedUserId : Option Nat
  linkedAt : Option Int
  oversightLevel : Option OversightLevel
  createdAt : Int
  updatedAt : Int
deriving DecidableEq, Repr

/-- A row of the `users` table (fields used by auth / claim logic). -/
structure UserRec where
  id : Nat
  email : Option String
  githubUsername : Option String
  isAgentCreated : Bool
  absorbedInto : Option Nat
  claimedAt : Option Int
  updatedAt : Int
deriving DecidableEq, Repr

/-- A row of the `apiKeys` table. -/
structure ApiKeyRec where
  id : Nat
  userId : Nat
  agentId : Option Nat
  keyHash : String
  isRevoked : Bool
  allowAutoPost : Option Bool
deriving DecidableEq, Repr

/-- Find a record by numeric id (`ctx.db.get`). -/
def findPost (posts : List Post) (pid : Nat) : Option Post :=
  posts.find? (fun p => p.id == pid)

def findAgent (agents : List Agent) (aid : Nat) : Option Agent :=
  agents.find? (fun a => a.id == aid)

def findUser (users : List UserRec) (uid : Nat) : Option UserRec :=
  users.find? (fun u => u.id == uid)

/-- ASCII model of JavaScript `String.prototype.toLowerCase` per char. -/
def jsToLowerChar (c : Char) : Char :=
  if 'A' ≤ c && c ≤ 'Z' then Char.ofNat (c.toNat + 32) else c

/-- ASCII model of JavaScript `String.prototype.toLowerCase`. -/
def jsStringToLower (s : String) : String :=
  String.mk (s.data.map jsToLowerChar)

/-! ## Oversight & auto-publish decision (http.ts and posts.createInternal) -/

/-- `SEVEN_DAYS_MS` from posts.ts. -/
def SEVEN_DAYS_MS : Int := 7 * 24 * 60 * 60 * 1000

/-- Resolved authentication context returned by `apiKeys.validateKey`. -/
structure AuthInfo where
  agentId : Option Nat
  linkedUserId : Option Nat
  oversightLevel : Option OversightLevel
  userId : Nat
  apiKeyId : Nat
  allowAutoPost : Bool
deriving DecidableEq, Repr

/-- `apiKeys.validateKey`: look up the key by hash, reject revoked keys,
and resolve the agent's link state and oversight level. -/
def validateKey (agents : List Agent) (keys : List ApiKeyRec) (keyHash : String) :
    Option AuthInfo :=
  match keys.find? (fun k => k.keyHash == keyHash) with
  | Option.none => Option.none
  | Option.some key =>
    if key.isRevoked then Option.none
    else
      let resolved : Option Nat × Option OversightLevel :=
        match key.agentId with
        | Option.none => (Option.none, Option.none)
        | Option.some aid =>
          match findAgent agents aid with
          | Option.none => (Option.none, Option.none)
          | Option.some agent => (agent.linkedUserId, agent.oversightLevel)
      Option.some
        { agentId := key.agentId
          linkedUserId := resolved.1
          oversightLevel := resolved.2
          userId := key.userId
          apiKeyId := key.id
          allowAutoPost := key.allowAutoPost.getD false }

/-- The HTTP-layer publication decision in `POST /api/v1/posts` (http.ts):
`!auth.linkedUserId || oversightLevel === "none" || oversightLevel === "notify"
 || auth.allowAutoPost`. -/
def shouldAutoPublishHttp (linkedUserId : Option Nat)
    (oversightLevel : Option OversightLevel) (allowAutoPost : Bool) : Bool :=
  linkedUserId.isNone
    || oversightLevel == Option.some OversightLevel.none
    || oversightLevel == Option.some OversightLevel.notify
    || allowAutoPost

/-- The publication decision inside `posts.createInternal`:
if `oversightLevel` is present use it ("none"/"notify" auto-publish),
otherwise fall back to the legacy `autoPost ?? false`. -/
def createInternalAuto (oversightLevel : Option OversightLevel)
    (autoPost : Option Bool) : Bool :=
  match oversightLevel with
  | Option.some lvl =>
      lvl == OversightLevel.none || lvl == OversightLevel.notify
  | Option.none => autoPost.getD false

/-- Arguments of `posts.createInternal`. -/
structure CreateArgs where
  apiKeyId : Nat
  agentId : Option Nat
  userId : Nat
  title : String
  content : String
  tags : List String
  package : String
  language : String
  version : Option String
  oversightLevel : Option OversightLevel
  autoPost : Option Bool
deriving DecidableEq, Repr

/-- `posts.createInternal`: build the stored post document.  `pid` is the
id the insert allocates. -/
def createInternal (args : CreateArgs) (now : Int) (pid : Nat) : Post :=
  let searchText :=
    jsStringToLower
      (String.intercalate " " [args.title, args.content, args.package, args.language])
  let auto := createInternalAuto args.oversightLevel args.autoPost
  { id := pid
    apiKeyId := args.apiKeyId
    agentId := args.agentId
    userId := args.userId
    title := args.title
    content := args.content
    tags := args.tags
    package := args.package
    language := args.language
    version := args.version
    status := if auto then PostStatus.auto_published else PostStatus.needs_review
    reviewDeadline := now + SEVEN_DAYS_MS
    reviewedAt := Option.none
    reviewedBy := Option.none
    declineReason := Option.none
    createdAt := now
    updatedAt := now
    publishedAt := if auto then Option.some now else Option.none
    isDeleted := false
    isHumanVerified := if auto then Option.some false else Option.none
    searchText := searchText
    originalAgentUserId := Option.none }

/-- The authenticated post-creation endpoint (`POST /api/v1/posts`, http.ts),
restricted to the publication decision: it computes `shouldAutoPublish`
from the auth context, runs `createInternal` with
`oversightLevel: auth.oversightLevel ?? undefined` and
`autoPost: auth.allowAutoPost`, and reports `auto_published` or
`needs_review` in the response based on its own decision.
Returns (response status string, stored post). -/
def httpCreatePost (auth : AuthInfo) (title content : String) (tags : List String)
    (pkg language : String) (version : Option String) (now : Int) (pid : Nat) :
    String × Post :=
  let sap := shouldAutoPublishHttp auth.linkedUserId auth.oversightLevel auth.allowAutoPost
  let post := createInternal
    { apiKeyId := auth.apiKeyId
      agentId := auth.agentId
      userId := auth.userId
      title := title
      content := content
      tags := tags
      package := pkg
      language := language
      version := version
      oversightLevel := auth.oversightLevel
      autoPost := Option.some auth.allowAutoPost } now pid
  ((if sap then "auto_published" else "needs_review"), post)

/-! ## Deadline sweep (posts.getPendingAutoPublish, posts.autoPublish,
scheduled/autoPublish.processAutoPublish) -/

/-- Selection predicate of `posts.getPendingAutoPublish`:
status `needs_review`, `reviewDeadline < now`, not soft-deleted. -/
def autoPublishEligible (now : Int) (p : Post) : Bool :=
  p.status == PostStatus.needs_review && p.reviewDeadline < now && !p.isDeleted

/-- `posts.getPendingAutoPublish`: the eligible posts, bounded by
`.take(100)`. -/
def getPendingAutoPublish (now : Int) (posts : List Post) : List Post :=
  (posts.filter (autoPublishEligible now)).take 100

/-- The patch applied by `posts.autoPublish` to a qualifying post. -/
def autoPublishPatch (now : Int) (p : Post) : Post :=
  { p with
      status := PostStatus.auto_published
      publishedAt := Option.some now
      updatedAt := now
      isHumanVerified := Option.some false }

/-- `posts.autoPublish`: re-read the post, no-op unless it is still
`needs_review` and not deleted, else patch it to `auto_published`. -/
def autoPublishMutation (now : Int) (posts : List Post) (pid : Nat) : List Post :=
  match findPost posts pid with
  | Option.none => posts
  | Option.some post =>
    if post.status == PostStatus.needs_review && !post.isDeleted then
      posts.map (fun p => if p.id == pid then autoPublishPatch now p else p)
    else posts

/-- Result of one run of the sweep: the new posts table, the scheduled
`sendAutoPublishedNotification` calls as (postId, userId) pairs, and the
`processed` count it returns. -/
structure SweepResult where
  posts : List Post
  notifications : List (Nat × Nat)
  processed : Nat
deriving DecidableEq, Repr

/-- `scheduled/autoPublish.processAutoPublish`: query the pending batch,
then for each entry run `posts.autoPublish` and schedule the
auto-published notification addressed to the entry's (legacy) `userId`. -/
def processAutoPublish (now : Int) (posts : List Post) : SweepResult :=
  let pending := getPendingAutoPublish now posts
  pending.foldl
    (fun acc post =>
      { posts := autoPublishMutation now acc.posts post.id
        notifications := acc.notifications ++ [(post.id, post.userId)]
        processed := acc.processed + 1 })
    { posts := posts, notifications := [], processed := 0 }

/-! ## Review actions (posts.approve, posts.decline) -/

/-- Admin allow-list from convex/auth.ts. -/
def ADMIN_EMAILS : List String := ["vivek.r.raja@gmail.com"]

def ADMIN_USERNAMES : List String := ["v-raja"]

/-- `checkIsAdmin` from convex/auth.ts: admin iff the email or the GitHub
username is on the compiled-in allow-list (empty strings are falsy). -/
def checkIsAdmin (u : UserRec) : Bool :=
  (match u.email with
   | Option.some e => e != "" && ADMIN_EMAILS.contains e
   | Option.none => false)
  ||
  (match u.githubUsername with
   | Option.some g => g != "" && ADMIN_USERNAMES.contains g
   | Option.none => false)

/-- Error codes thrown by the review mutations. -/
inductive ErrCode
  | UNAUTHENTICATED
  | NOT_FOUND
  | FORBIDDEN
deriving DecidableEq, Repr

deriving instance DecidableEq for Except

/-- The state visible to the posts module. -/
structure PostsDB where
  posts : List Post
  agents : List Agent
  users : List UserRec
deriving DecidableEq, Repr

/-- Whether `userId` is linked to the post's agent
(`agent?.linkedUserId === userId` after `ctx.db.get(post.agentId)`). -/
def linkedViaAgent (agents : List Agent) (userId : Nat) (post : Post) : Bool :=
  match post.agentId with
  | Option.none => false
  | Option.some aid =>
    match findAgent agents aid with
    | Option.none => false
    | Option.some agent => agent.linkedUserId == Option.some userId

/-- The admin resolution at the top of `posts.approve`
(`checkIsAdmin(user)` after `ctx.db.get(userId)`, false when absent). -/
def isAdminUser (users : List UserRec) (userId : Nat) : Bool :=
  match findUser users userId with
  | Option.some u => checkIsAdmin u
  | Option.none => false

/-- The permission check of `posts.approve`: admin, or linked to the
post's agent, or the legacy `post.userId` owner. -/
def approvePermitted (db : PostsDB) (userId : Nat) (post : Post) : Bool :=
  isAdminUser db.users userId
  || linkedViaAgent db.agents userId post
  || post.userId == userId

/-- The permission check of `posts.decline`: linked to the post's agent
or the legacy owner.  It has no admin branch. -/
def declinePermitted (db : PostsDB) (userId : Nat) (post : Post) : Bool :=
  linkedViaAgent db.agents userId post || post.userId == userId

/-- Replace the post with id `pid` by `np` (`ctx.db.patch`). -/
def patchPost (posts : List Post) (pid : Nat) (np : Post) : List Post :=
  posts.map (fun p => if p.id == pid then np else p)

/-- Replace the posts table of the state. -/
def withPosts (db : PostsDB) (ps : List Post) : PostsDB :=
  { db with posts := ps }

/-- The post record written by a successful approve. -/
def approvedPost (post : Post) (userId : Nat) (titleArg contentArg : Option String)
    (agentIdArg : Option Nat) (now : Int) : Post :=
  let title := titleArg.getD post.title
  let content := contentArg.getD post.content
  let searchText :=
    jsStringToLower
      (String.intercalate " " [title, content, post.package, post.language])
  { post with
      title := title
      content := content
      searchText := searchText
      status := PostStatus.approved
      reviewedAt := Option.some now
      reviewedBy := Option.some userId
      publishedAt := Option.some now
      updatedAt := now
      isHumanVerified := Option.some true
      agentId :=
        match agentIdArg with
        | Option.some aid => Option.some aid
        | Option.none => post.agentId }

/-- The body of `posts.approve` after authentication. -/
def approveAuthed (db : PostsDB) (userId : Nat) (postId : Nat)
    (titleArg contentArg : Option String) (agentIdArg : Option Nat) (now : Int) :
    Except ErrCode PostsDB :=
  match findPost db.posts postId with
  | Option.none => Except.error ErrCode.NOT_FOUND
  | Option.some post =>
    if !(isAdminUser db.users userId || linkedViaAgent db.agents userId post
          || post.userId == userId) then
      Except.error ErrCode.FORBIDDEN
    else if post.status != PostStatus.needs_review then Except.ok db
    else
      match agentIdArg with
      | Option.some aid =>
        if !isAdminUser db.users userId then Except.error ErrCode.FORBIDDEN
        else if (findAgent db.agents aid).isSome then
          Except.ok (withPosts db (patchPost db.posts postId
            (approvedPost post userId titleArg contentArg agentIdArg now)))
        else Except.error ErrCode.NOT_FOUND
      | Option.none =>
        Except.ok (withPosts db (patchPost db.posts postId
          (approvedPost post userId titleArg contentArg agentIdArg now)))

/-- `posts.approve`: authenticate, check permission (admins allowed),
return success unchanged if the post is no longer `needs_review`,
validate an optional admin author-reassignment, then patch the post to
`approved` with edits, `publishedAt = now` and `isHumanVerified = true`. -/
def approve (db : PostsDB) (authUserId : Option Nat) (postId : Nat)
    (titleArg contentArg : Option String) (agentIdArg : Option Nat) (now : Int) :
    Except ErrCode PostsDB :=
  match authUserId with
  | Option.none => Except.error ErrCode.UNAUTHENTICATED
  | Option.some userId =>
    approveAuthed db userId postId titleArg contentArg agentIdArg now

/-- The post record written by a successful decline. -/
def declinedPost (post : Post) (userId : Nat) (reason : Option String)
    (now : Int) : Post :=
  { post with
      status := PostStatus.declined
      reviewedAt := Option.some now
      reviewedBy := Option.some userId
      declineReason := reason
      updatedAt := now }

/-- The body of `posts.decline` after authentication. -/
def declineAuthed (db : PostsDB) (userId : Nat) (postId : Nat)
    (reason : Option String) (now : Int) : Except ErrCode PostsDB :=
  match findPost db.posts postId with
  | Option.none => Except.error ErrCode.NOT_FOUND
  | Option.some post =>
    if !(linkedViaAgent db.agents userId post || post.userId == userId) then
      Except.error ErrCode.FORBIDDEN
    else if post.status != PostStatus.needs_review then Except.ok db
    else
      Except.ok (withPosts db (patchPost db.posts postId
        (declinedPost post userId reason now)))

/-- `posts.decline`: authenticate, check permission (linked human or
legacy owner only — no admin branch), return success unchanged if the
post is no longer `needs_review`, else patch to `declined` with the
reviewer and the optional reason, and no `publishedAt`. -/
def decline (db : PostsDB) (authUserId : Option Nat) (postId : Nat)
    (reason : Option String) (now : Int) : Except ErrCode PostsDB :=
  match authUserId with
  | Option.none => Except.error ErrCode.UNAUTHENTICATED
  | Option.some userId =>
    declineAuthed db userId postId reason now

/-! ## Email-action transitions (posts.approveViaEmail, posts.declineViaEmail) -/

/-- Result shape of the email-action mutations. -/
structure EmailActionResult where
  alreadyProcessed : Bool
  status : Option String
deriving DecidableEq, Repr

/-- The string a post status renders to in the email-action results. -/
def statusString : PostStatus → String
  | PostStatus.needs_review => "needs_review"
  | PostStatus.approved => "approved"
  | PostStatus.declined => "declined"
  | PostStatus.auto_published => "auto_published"

/-- `posts.approveViaEmail`: no authentication, no soft-delete check;
only gated on the post still being `needs_review`. -/
def approveViaEmail (posts : List Post) (pid : Nat) (now : Int) :
    List Post × EmailActionResult :=
  match findPost posts pid with
  | Option.none => (posts, { alreadyProcessed := true, status := Option.some "not_found" })
  | Option.some post =>
    if post.status != PostStatus.needs_review then
      (posts, { alreadyProcessed := true, status := Option.some (statusString post.status) })
    else
      let np :=
        { post with
            status := PostStatus.approved
            reviewedAt := Option.some now
            publishedAt := Option.some now
            updatedAt := now
            isHumanVerified := Option.some true }
      (patchPost posts pid np, { alreadyProcessed := false, status := Option.none })

/-- `posts.declineViaEmail`: no authentication, no soft-delete check;
only gated on the post still being `needs_review`. -/
def declineViaEmail (posts : List Post) (pid : Nat) (now : Int) :
    List Post × EmailActionResult :=
  match findPost posts pid with
  | Option.none => (posts, { alreadyProcessed := true, status := Option.some "not_found" })
  | Option.some post =>
    if post.status != PostStatus.needs_review then
      (posts, { alreadyProcessed := true, status := Option.some (statusString post.status) })
    else
      let np :=
        { post with
            status := PostStatus.declined
            reviewedAt := Option.some now
            declineReason := Option.some "Declined via email"
            updatedAt := now }
      (patchPost posts pid np, { alreadyProcessed := false, status := Option.none })

/-- `posts.getInternal` (and `posts.get`): read a post, skipping
soft-deleted posts. -/
def getInternal (posts : List Post) (pid : Nat) : Option Post :=
  match findPost posts pid with
  | Option.none => Option.none
  | Option.some post => if post.isDeleted then Option.none else Option.some post

/-! ## Handle validation (apiKeys.create, agents.update, agentSignup.validateHandle) -/

def isLowerAlpha (c : Char) : Bool := 'a' ≤ c && c ≤ 'z'

def isDigitChar (c : Char) : Bool := '0' ≤ c && c ≤ '9'

def isLowerAlnum (c : Char) : Bool := isLowerAlpha c || isDigitChar c

def isHandleChar (c : Char) : Bool := isLowerAlnum c || c == '-'

/-- The regex `^[a-z][a-z0-9-]*[a-z0-9]$` (no single-char alternative)
over a character list. -/
def matchesHandleLongList : List Char → Bool
  | c :: c2 :: rest =>
    isLowerAlpha c
      && ((c2 :: rest).dropLast.all isHandleChar)
      && isLowerAlnum ((c2 :: rest).getLastD c2)
  | _ => false

/-- The regex `^[a-z][a-z0-9-]*[a-z0-9]$`, as used by agents.update. -/
def matchesHandleLong (s : String) : Bool :=
  matchesHandleLongList s.data

/-- The combined regex with the single-char alternative, over a list. -/
def matchesHandlePatternList : List Char → Bool
  | [c] => isLowerAlpha c
  | l => matchesHandleLongList l

/-- The regex `^[a-z][a-z0-9-]*[a-z0-9]$|^[a-z]$`, as used by
apiKeys.create and agentSignup.validateHandle. -/
def matchesHandlePattern (s : String) : Bool :=
  matchesHandlePatternList s.data

/-- The leading-letter test of validateHandle (regex `^[a-z]`). -/
def startsLowerList : List Char → Bool
  | c :: _ => isLowerAlpha c
  | [] => false

/-- The regex test `/--/` — does the string contain consecutive hyphens. -/
def hasDoubleHyphen : List Char → Bool
  | a :: b :: rest => (a == '-' && b == '-') || hasDoubleHyphen (b :: rest)
  | _ => false

/-- `validateHandle` from agentSignup (part_006): length 3–30, starts
with a lowercase letter, overall pattern, no consecutive hyphens.
Returns the error message or `none` when valid. -/
def validateHandle (handle : String) : Option String :=
  if handle.length < 3 then Option.some "Handle must be at least 3 characters"
  else if handle.length > 30 then Option.some "Handle must be at most 30 characters"
  else if !startsLowerList handle.data then
    Option.some "Handle must start with a lowercase letter"
  else if !matchesHandlePattern handle then
    Option.some "Handle must contain only lowercase letters, numbers, and hyphens"
  else if hasDoubleHyphen handle.data then
    Option.some "Handle cannot contain consecutive hyphens"
  else Option.none

/-- The format verdict of the web creation path `apiKeys.create` on an
explicitly provided handle: the combined regex, then length 3–30.
There is no consecutive-hyphen check and no normalization. -/
def apiKeysCreateAcceptsHandle (handle : String) : Bool :=
  matchesHandlePattern handle && 3 ≤ handle.length && handle.length ≤ 30

/-- JavaScript whitespace for `String.prototype.trim` (ASCII + NBSP). -/
def isJsWs (c : Char) : Bool :=
  c == ' ' || c == '\t' || c == '\n' || c == '\r'
    || c == Char.ofNat 11 || c == Char.ofNat 12 || c == Char.ofNat 160

/-- Model of `handle.trim().toLowerCase()` on the rename path. -/
def jsTrimLower (s : String) : String :=
  let cs := (s.data.dropWhile isJsWs).reverse.dropWhile isJsWs |>.reverse
  String.mk (cs.map jsToLowerChar)

/-- The format verdict of the rename path `agents.update` on a provided
handle: normalize with trim+lowercase, then length 3–30, then the long
regex (with a `length > 1` escape), then no consecutive hyphens. -/
def agentsUpdateAcceptsHandle (handle : String) : Bool :=
  let n := jsTrimLower handle
  if n.length < 3 || n.length > 30 then false
  else if !matchesHandleLong n && n.length > 1 then false
  else if hasDoubleHyphen n.data then false
  else true

/-! ## Signup rate limiter (agentSignup.checkInitRateLimit) -/

/-- A row of the `agentSignupRateLimits` table. -/
structure RateLimitRecord where
  fingerprint : String
  timestamps : List Int
  lastUpdated : Int
deriving DecidableEq, Repr

/-- Outcome of a rate-limit check. -/
structure RateLimitResult where
  allowed : Bool
  retryAfter : Option Int
deriving DecidableEq, Repr

/-- `Math.min(...xs)` for a nonempty list (the deny branch only takes the
min of a list of length ≥ 5). -/
def listMin : List Int → Int
  | [] => 0
  | x :: xs => xs.foldl min x

/-- `Math.ceil(a / b)` for integer `a` and positive integer `b`. -/
def mathCeilDiv (a b : Int) : Int := Int.fdiv (a + b - 1) b

/-- The 1-hour window of the signup limiter. -/
def RATE_WINDOW_MS : Int := 60 * 60 * 1000

/-- `MAX_INIT_PER_HOUR` from agentSignup CONFIG. -/
def MAX_INIT_PER_HOUR : Nat := 5

/-- `agentSignup.checkInitRateLimit`, for a single fingerprint: the state
is that fingerprint's record (or `none`).  First request inserts a
record; otherwise timestamps outside the window are filtered out, a
count ≥ 5 denies with `retryAfter` seconds until the oldest retained
timestamp exits the window (state unchanged), and otherwise `now` is
appended and the request is allowed. -/
def checkInitRateLimit (state : Option RateLimitRecord) (fingerprint : String)
    (now : Int) : RateLimitResult × Option RateLimitRecord :=
  match state with
  | Option.none =>
    ({ allowed := true, retryAfter := Option.none },
     Option.some { fingerprint := fingerprint, timestamps := [now], lastUpdated := now })
  | Option.some existing =>
    let recent := existing.timestamps.filter (fun ts => now - ts < RATE_WINDOW_MS)
    if MAX_INIT_PER_HOUR ≤ recent.length then
      let oldest := listMin recent
      let retryAfter := mathCeilDiv (oldest + RATE_WINDOW_MS - now) 1000
      ({ allowed := false, retryAfter := Option.some retryAfter }, state)
    else
      ({ allowed := true, retryAfter := Option.none },
       Option.some { existing with timestamps := recent ++ [now], lastUpdated := now })

/-! ## Claim/link tokens (agentSignup.verifyClaimToken, claimAgentPublic) -/

/-- ASCII whitespace ignored by forgiving-base64 (`atob`). -/
def isB64Ws (c : Char) : Bool :=
  c == Char.ofNat 9 || c == Char.ofNat 10 || c == Char.ofNat 12
    || c == Char.ofNat 13 || c == ' '

/-- Value of a base64 alphabet character. -/
def b64Val (c : Char) : Option Nat :=
  if 'A' ≤ c && c ≤ 'Z' then Option.some (c.toNat - 65)
  else if 'a' ≤ c && c ≤ 'z' then Option.some (c.toNat - 97 + 26)
  else if '0' ≤ c && c ≤ '9' then Option.some (c.toNat - 48 + 52)
  else if c == '+' then Option.some 62
  else if c == '/' then Option.some 63
  else Option.none

/-- Reassemble bytes from 6-bit values (groups of 4; a trailing group of
2 or 3 values yields 1 or 2 bytes). -/
def b64DecodeVals : List Nat → List Nat
  | v1 :: v2 :: v3 :: v4 :: rest =>
    (v1 * 4 + v2 / 16) :: ((v2 % 16) * 16 + v3 / 4) :: ((v3 % 4) * 64 + v4)
      :: b64DecodeVals rest
  | [v1, v2] => [v1 * 4 + v2 / 16]
  | [v1, v2, v3] => [v1 * 4 + v2 / 16, (v2 % 16) * 16 + v3 / 4]
  | _ => []

/-- Remove up to two trailing `=` padding characters. -/
def stripBase64Pad (cs : List Char) : List Char :=
  let cs1 := if cs.getLast? == Option.some '=' then cs.dropLast else cs
  if cs1.getLast? == Option.some '=' then cs1.dropLast else cs1

/-- `atob` (WHATWG forgiving-base64 decode): strip ASCII whitespace,
strip padding when the length is a multiple of 4, fail when the length
is ≡ 1 (mod 4) or a character is outside the alphabet, else decode.
The decoded bytes are returned as a binary string. -/
def atobJs (s : String) : Option String :=
  let cs0 := s.data.filter (fun c => !isB64Ws c)
  let cs := if cs0.length % 4 == 0 then stripBase64Pad cs0 else cs0
  if cs.length % 4 == 1 then Option.none
  else
    match cs.mapM b64Val with
    | Option.none => Option.none
    | Option.some vals => Option.some (String.mk ((b64DecodeVals vals).map Char.ofNat))

/-- Globally replace `-` by `+` and `_` by `/` (base64url to base64). -/
def b64urlToStd (t : String) : String :=
  String.mk (t.data.map (fun c => if c == '-' then '+' else if c == '_' then '/' else c))

/-- JavaScript `s.split(":")` (single-character separator). -/
def splitColonAux : List Char → List Char → List String
  | [], acc => [String.mk acc.reverse]
  | c :: rest, acc =>
    if c == ':' then String.mk acc.reverse :: splitColonAux rest []
    else splitColonAux rest (c :: acc)

/-- JavaScript `decoded.split(":")`. -/
def jsSplitColon (s : String) : List String :=
  splitColonAux s.data []

/-- Digit-prefix value for `parseInt`, `none` when no leading digit. -/
def parseDigits (cs : List Char) : Option Nat :=
  let ds := cs.takeWhile isDigitChar
  if ds.isEmpty then Option.none
  else Option.some (ds.foldl (fun acc c => acc * 10 + (c.toNat - 48)) 0)

/-- `parseInt(s, 10)`: skip leading whitespace, optional sign, then the
digit prefix; `none` models `NaN`. -/
def jsParseInt (s : String) : Option Int :=
  match s.data.dropWhile isJsWs with
  | '+' :: rest => (parseDigits rest).map Int.ofNat
  | '-' :: rest => (parseDigits rest).map (fun n => -(Int.ofNat n))
  | rest => (parseDigits rest).map Int.ofNat

/-- `constantTimeEqual` from agentSignup: length check, then OR of the
XOR of the char codes. -/
def constantTimeEqual (a b : String) : Bool :=
  if a.length != b.length then false
  else
    ((a.data.zip b.data).foldl (fun r cc => r ||| (cc.1.toNat ^^^ cc.2.toNat)) 0) == 0

/-- Parsed claim-token verification result. -/
structure ClaimTokenResult where
  signupRequestId : String
  expiry : Int
  isValid : Bool
deriving DecidableEq, Repr

/-- `agentSignup.verifyClaimToken`.  `hmacHex data` stands for the hex
HMAC-SHA256 signature of `data` under the fixed secret (an external
crypto primitive in the source).  Any decode failure, a field count
other than 3, or a `NaN` expiry yields `none`; otherwise the parsed
fields are returned with `isValid` the constant-time signature check. -/
def verifyClaimToken (hmacHex : String → String) (token : String) :
    Option ClaimTokenResult :=
  match atobJs (b64urlToStd token) with
  | Option.none => Option.none
  | Option.some decoded =>
    match jsSplitColon decoded with
    | [signupRequestId, expiryStr, providedSig] =>
      match jsParseInt expiryStr with
      | Option.none => Option.none
      | Option.some expiry =>
        let data := signupRequestId ++ ":" ++ expiryStr
        let expectedSig := hmacHex data
        Option.some
          { signupRequestId := signupRequestId
            expiry := expiry
            isValid := constantTimeEqual providedSig expectedSig }
    | _ => Option.none

/-- A row of `comments` (fields touched by the claim migration). -/
structure CommentRec where
  id : Nat
  userId : Nat
deriving DecidableEq, Repr

/-- A row of `commentLikes` (fields touched by the claim migration). -/
structure LikeRec where
  id : Nat
  userId : Nat
deriving DecidableEq, Repr

/-- A row of `agentSignupRequests` (fields used by claiming); Convex ids
are modelled as strings here because the token embeds them textually. -/
structure SignupRequest where
  id : String
  userId : Option Nat
  apiKeyId : Option Nat
deriving DecidableEq, Repr

/-- The state touched by `claimAgentPublic`. -/
structure ClaimState where
  users : List UserRec
  agents : List Agent
  apiKeys : List ApiKeyRec
  posts : List Post
  comments : List CommentRec
  commentLikes : List LikeRec
  requests : List SignupRequest
deriving DecidableEq, Repr

/-- `linkAgentToHuman`: patch the agent with the link and oversight. -/
def linkAgentToHuman (st : ClaimState) (agentId humanUserId : Nat)
    (oversight : OversightLevel) (now : Int) : ClaimState :=
  { st with
      agents := st.agents.map (fun a =>
        if a.id == agentId then
          { a with
              linkedUserId := Option.some humanUserId
              linkedAt := Option.some now
              oversightLevel := Option.some oversight
              updatedAt := now }
        else a) }

/-- `performClaimMigration`: in the agent-centric case just link the
key's agent; in the legacy case reassign the key, every post, comment
and like, and archive the agent user. -/
def performClaimMigration (st : ClaimState) (agentUserId humanUserId apiKeyId : Nat)
    (now : Int) : ClaimState :=
  match (st.apiKeys.find? (fun k => k.id == apiKeyId)).bind (fun k => k.agentId) with
  | Option.some agentId => linkAgentToHuman st agentId humanUserId OversightLevel.review now
  | Option.none =>
    { st with
        apiKeys := st.apiKeys.map (fun k =>
          if k.id == apiKeyId then { k with userId := humanUserId } else k)
        posts := st.posts.map (fun p =>
          if p.userId == agentUserId then
            { p with userId := humanUserId, originalAgentUserId := Option.some agentUserId }
          else p)
        comments := st.comments.map (fun c =>
          if c.userId == agentUserId then { c with userId := humanUserId } else c)
        commentLikes := st.commentLikes.map (fun l =>
          if l.userId == agentUserId then { l with userId := humanUserId } else l)
        users := st.users.map (fun u =>
          if u.id == agentUserId then
            { u with
                absorbedInto := Option.some humanUserId
                claimedAt := Option.some now
                updatedAt := now }
          else u) }

/-- Outcome of `claimAgentPublic`. -/
structure ClaimOutcome where
  success : Bool
  error : Option String
deriving DecidableEq, Repr

/-- `agentSignup.claimAgentPublic`: authenticate, reject agent-created
accounts, verify the token, reject invalid or expired tokens with a
reason code and no mutation, then resolve the request and migrate
unless already claimed. -/
def claimAgentPublic (st : ClaimState) (authUserId : Option Nat) (token : String)
    (hmacHex : String → String) (now : Int) : ClaimOutcome × ClaimState :=
  match authUserId with
  | Option.none => ({ success := false, error := Option.some "not_authenticated" }, st)
  | Option.some userId =>
    match findUser st.users userId with
    | Option.none => ({ success := false, error := Option.some "user_not_found" }, st)
    | Option.some user =>
      if user.isAgentCreated then
        ({ success := false, error := Option.some "agent_cannot_claim" }, st)
      else
        match verifyClaimToken hmacHex token with
        | Option.none => ({ success := false, error := Option.some "invalid_token" }, st)
        | Option.some verified =>
          if !verified.isValid then
            ({ success := false, error := Option.some "invalid_token" }, st)
          else if verified.expiry < now then
            ({ success := false, error := Option.some "expired" }, st)
          else
            match st.requests.find? (fun r => r.id == verified.signupRequestId) with
            | Option.none => ({ success := false, error := Option.some "invalid_token" }, st)
            | Option.some request =>
              match request.userId, request.apiKeyId with
              | Option.some ruid, Option.some rkid =>
                match findUser st.users ruid with
                | Option.none =>
                  ({ success := false, error := Option.some "invalid_token" }, st)
                | Option.some agentUser =>
                  match agentUser.absorbedInto with
                  | Option.some _ =>
                    ({ success := false, error := Option.some "already_claimed" }, st)
                  | Option.none =>
                    ({ success := true, error := Option.none },
                     performClaimMigration st ruid userId rkid now)
              | _, _ => ({ success := false, error := Option.some "invalid_token" }, st)

/-! ## Concrete records used by the instance theorems -/

/-- A baseline `needs_review` post by agent 10 with legacy user 3. -/
def samplePost : Post :=
  { id := 20
    apiKeyId := 5
    agentId := Option.some 10
    userId := 3
    title := "t"
    content := "c"
    tags := []
    package := "p"
    language := "l"
    version := Option.none
    status := PostStatus.needs_review
    reviewDeadline := 100
    reviewedAt := Option.none
    reviewedBy := Option.none
    declineReason := Option.none
    createdAt := 0
    updatedAt := 0
    publishedAt := Option.none
    isDeleted := false
    isHumanVerified := Option.none
    searchText := ""
    originalAgentUserId := Option.none }

/-- A self-registered agent: unlinked, no oversight level (as created by
`agentSignup.createAgentUserAndKey`). -/
def sampleAgent : Agent :=
  { id := 10
    handle := "selfbot"
    createdByUserId := Option.none
    linkedUserId := Option.none
    linkedAt := Option.none
    oversightLevel := Option.none
    createdAt := 0
    updatedAt := 0 }

/-- The API key of the self-registered agent (`allowAutoPost: false`, as
set by `createAgentUserAndKey`). -/
def sampleKey : ApiKeyRec :=
  { id := 5
    userId := 3
    agentId := Option.some 10
    keyHash := "h1"
    isRevoked := false
    allowAutoPost := Option.some false }

/-- The auth context `validateKey` resolves for that key. -/
def sampleAuth : AuthInfo :=
  { agentId := Option.some 10
    linkedUserId := Option.none
    oversightLevel := Option.none
    userId := 3
    apiKeyId := 5
    allowAutoPost := false }

/-! ## Claim theorems -/

/-- C1: the publication decision is NOT computed identically at the two
call sites.  For a self-registered agent — no `linkedUserId`, no
`oversightLevel`, key `allowAutoPost = false` — the HTTP layer's
`shouldAutoPublish` is true (no linked human), so the response reports
`auto_published`, while `posts.createInternal` (which never receives the
link state) falls back to the legacy flag and stores the post as
`needs_review`. -/
theorem c1_http_vs_store_divergence :
    validateKey [sampleAgent] [sampleKey] "h1" = Option.some sampleAuth
    ∧ (httpCreatePost sampleAuth "t" "c" [] "p" "l" Option.none 1000 20).1
        = "auto_published"
    ∧ (httpCreatePost sampleAuth "t" "c" [] "p" "l" Option.none 1000 20).2.status
        = PostStatus.needs_review := by
  refine ⟨rfl, rfl, rfl⟩

/-- C2: an unlinked agent with no oversight level set does NOT get an
`auto_published` post.  `posts.createInternal` receives
`oversightLevel = undefined` and `autoPost = false` for such an agent and
stores `needs_review` with no `publishedAt`, although the agent has no
linked human (the HTTP decision for the same request is auto-publish). -/
theorem c2_unlinked_agent_stored_needs_review :
    sampleAgent.linkedUserId = Option.none
    ∧ sampleAgent.oversightLevel = Option.none
    ∧ (httpCreatePost sampleAuth "t" "c" [] "p" "l" Option.none 1000 20).2.status
        = PostStatus.needs_review
    ∧ (httpCreatePost sampleAuth "t" "c" [] "p" "l" Option.none 1000 20).2.publishedAt
        = Option.none
    ∧ shouldAutoPublishHttp sampleAuth.linkedUserId sampleAuth.oversightLevel
        sampleAuth.allowAutoPost = true := by
  refine ⟨rfl, rfl, rfl, rfl, rfl⟩

/-- C5: the deadline sweep schedules the auto-published notification with
the post's legacy `userId`, not the `linkedUserId` of the post's agent.
Here post 20 belongs to agent 10 whose linked human is user 7, but the
sweep notifies user 3 (the legacy placeholder). -/
theorem c5_sweep_notifies_legacy_user :
    let agent : Agent :=
      { sampleAgent with
          linkedUserId := Option.some 7
          linkedAt := Option.some 50
          oversightLevel := Option.some OversightLevel.review }
    (processAutoPublish 200 [samplePost]).notifications = [(20, 3)]
    ∧ samplePost.agentId = Option.some agent.id
    ∧ agent.linkedUserId = Option.some 7
    ∧ (3 : Nat) ≠ 7
    ∧ (processAutoPublish 200 [samplePost]).posts.map Post.status
        = [PostStatus.auto_published] := by
  refine ⟨rfl, rfl, rfl, by decide, rfl⟩

/-- C10: the email-action transitions do not check the soft-delete flag.
A soft-deleted post still in `needs_review` is approved (or declined) by
the email actions with `alreadyProcessed = false`, while the deadline
sweep's mutation skips it and the internal read path returns null. -/
theorem c10_email_actions_ignore_soft_delete (posts : List Post) (pid : Nat)
    (p : Post) (now : Int)
    (hfind : findPost posts pid = Option.some p)
    (hdel : p.isDeleted = true)
    (hstatus : p.status = PostStatus.needs_review) :
    (approveViaEmail posts pid now).2.alreadyProcessed = false
    ∧ (approveViaEmail posts pid now).1
        = patchPost posts pid
            { p with
                status := PostStatus.approved
                reviewedAt := Option.some now
                publishedAt := Option.some now
                updatedAt := now
                isHumanVerified := Option.some true }
    ∧ (declineViaEmail posts pid now).2.alreadyProcessed = false
    ∧ (declineViaEmail posts pid now).1
        = patchPost posts pid
            { p with
                status := PostStatus.declined
                reviewedAt := Option.some now
                declineReason := Option.some "Declined via email"
                updatedAt := now }
    ∧ autoPublishMutation now posts pid = posts
    ∧ autoPublishEligible now p = false
    ∧ getInternal posts pid = Option.none := by
  refine ⟨?_, ?_, ?_, ?_, ?_, ?_, ?_⟩ <;>
    simp [approveViaEmail, declineViaEmail, autoPublishMutation, autoPublishEligible,
      getInternal, hfind, hdel, hstatus]

/-- Witness for C10 at a concrete soft-deleted `needs_review` post. -/
theorem c10_witness :
    (approveViaEmail [{ samplePost with isDeleted := true }] 20 7).2.alreadyProcessed = false
    ∧ (approveViaEmail [{ samplePost with isDeleted := true }] 20 7).1
        = patchPost [{ samplePost with isDeleted := true }] 20
            { { samplePost with isDeleted := true } with
                status := PostStatus.approved
                reviewedAt := Option.some 7
                publishedAt := Option.some 7
                updatedAt := 7
                isHumanVerified := Option.some true }
    ∧ (declineViaEmail [{ samplePost with isDeleted := true }] 20 7).2.alreadyProcessed = false
    ∧ (declineViaEmail [{ samplePost with isDeleted := true }] 20 7).1
        = patchPost [{ samplePost with isDeleted := true }] 20
            { { samplePost with isDeleted := true } with
                status := PostStatus.declined
                reviewedAt := Option.some 7
                declineReason := Option.some "Declined via email"
                updatedAt := 7 }
    ∧ autoPublishMutation 7 [{ samplePost with isDeleted := true }] 20
        = [{ samplePost with isDeleted := true }]
    ∧ autoPublishEligible 7 { samplePost with isDeleted := true } = false
    ∧ getInternal [{ samplePost with isDeleted := true }] 20 = Option.none :=
  c10_email_actions_ignore_soft_delete [{ samplePost with isDeleted := true }] 20
    { samplePost with isDeleted := true } 7 rfl rfl rfl

/-! ## Rate limiter lemmas and claim C8 -/

/-- Allow step: when every recorded timestamp is inside the window and
fewer than 5 are recorded, the request is allowed and `now` appended. -/
lemma checkInitRateLimit_allow (rec : RateLimitRecord) (fp : String) (now : Int)
    (hall : ∀ ts ∈ rec.timestamps, now - ts < RATE_WINDOW_MS)
    (hlen : rec.timestamps.length < MAX_INIT_PER_HOUR) :
    checkInitRateLimit (Option.some rec) fp now
      = ({ allowed := true, retryAfter := Option.none },
         Option.some
           { rec with timestamps := rec.timestamps ++ [now], lastUpdated := now }) := by
  have hf : rec.timestamps.filter (fun ts => now - ts < RATE_WINDOW_MS)
      = rec.timestamps := by
    apply List.filter_eq_self.mpr
    intro a ha
    simpa using hall a ha
  simp only [checkInitRateLimit, hf]
  rw [if_neg (by omega)]

/-- Deny step: when every recorded timestamp is inside the window and at
least 5 are recorded, the request is denied, the record left unchanged,
and `retryAfter` is the ceiling of seconds until the oldest timestamp
exits the window. -/
lemma checkInitRateLimit_deny (rec : RateLimitRecord) (fp : String) (now : Int)
    (hall : ∀ ts ∈ rec.timestamps, now - ts < RATE_WINDOW_MS)
    (hlen : MAX_INIT_PER_HOUR ≤ rec.timestamps.length) :
    checkInitRateLimit (Option.some rec) fp now
      = ({ allowed := false,
           retryAfter := Option.some
             (mathCeilDiv (listMin rec.timestamps + RATE_WINDOW_MS - now) 1000) },
         Option.some rec) := by
  have hf : rec.timestamps.filter (fun ts => now - ts < RATE_WINDOW_MS)
      = rec.timestamps := by
    apply List.filter_eq_self.mpr
    intro a ha
    simpa using hall a ha
  simp only [checkInitRateLimit, hf]
  rw [if_pos (by omega)]

/-- Reset step: once the window has fully elapsed past every recorded
timestamp, the filter empties the list and the request is allowed. -/
lemma checkInitRateLimit_reset (rec : RateLimitRecord) (fp : String) (now : Int)
    (hall : ∀ ts ∈ rec.timestamps, RATE_WINDOW_MS ≤ now - ts) :
    checkInitRateLimit (Option.some rec) fp now
      = ({ allowed := true, retryAfter := Option.none },
         Option.some { rec with timestamps := [now], lastUpdated := now }) := by
  have hf : rec.timestamps.filter (fun ts => now - ts < RATE_WINDOW_MS)
      = [] := by
    apply List.filter_eq_nil_iff.mpr
    intro a ha
    have := hall a ha
    simp
    omega
  simp only [checkInitRateLimit, hf]
  rw [if_neg (by simp [MAX_INIT_PER_HOUR])]
  simp

/-- `Math.ceil(a / 1000)` is positive for positive `a`. -/
lemma mathCeilDiv_pos (a : Int) (ha : 0 < a) : 0 < mathCeilDiv a 1000 := by
  unfold mathCeilDiv
  rw [Int.fdiv_eq_ediv _ (by norm_num)]
  have h1 : (1 : Int) ≤ (a + 1000 - 1) / 1000 := by
    rw [Int.le_ediv_iff_mul_le (by norm_num)]
    omega
  omega

/-- C8: for a fixed fingerprint, starting from an empty record, five
requests inside the 1-hour window are allowed, a sixth inside the window
is denied with `retryAfter` the positive number of seconds until the
oldest retained timestamp leaves the window (state unchanged), and a
request after the window has fully elapsed past all recorded timestamps
is allowed again. -/
theorem c8_rate_limiter_boundary (fp : String) (t1 t2 t3 t4 t5 t6 t7 : Int)
    (h12 : t1 ≤ t2) (h23 : t2 ≤ t3) (h34 : t3 ≤ t4) (h45 : t4 ≤ t5) (h56 : t5 ≤ t6)
    (hwin : t6 - t1 < RATE_WINDOW_MS) (h7 : t5 + RATE_WINDOW_MS ≤ t7) :
    checkInitRateLimit Option.none fp t1
      = ({ allowed := true, retryAfter := Option.none },
         Option.some { fingerprint := fp, timestamps := [t1], lastUpdated := t1 })
    ∧ checkInitRateLimit
        (Option.some { fingerprint := fp, timestamps := [t1], lastUpdated := t1 }) fp t2
      = ({ allowed := true, retryAfter := Option.none },
         Option.some { fingerprint := fp, timestamps := [t1, t2], lastUpdated := t2 })
    ∧ checkInitRateLimit
        (Option.some { fingerprint := fp, timestamps := [t1, t2], lastUpdated := t2 }) fp t3
      = ({ allowed := true, retryAfter := Option.none },
         Option.some { fingerprint := fp, timestamps := [t1, t2, t3], lastUpdated := t3 })
    ∧ checkInitRateLimit
        (Option.some { fingerprint := fp, timestamps := [t1, t2, t3], lastUpdated := t3 }) fp t4
      = ({ allowed := true, retryAfter := Option.none },
         Option.some { fingerprint := fp, timestamps := [t1, t2, t3, t4], lastUpdated := t4 })
    ∧ checkInitRateLimit
        (Option.some { fingerprint := fp, timestamps := [t1, t2, t3, t4], lastUpdated := t4 }) fp t5
      = ({ allowed := true, retryAfter := Option.none },
         Option.some { fingerprint := fp, timestamps := [t1, t2, t3, t4, t5], lastUpdated := t5 })
    ∧ checkInitRateLimit
        (Option.some { fingerprint := fp, timestamps := [t1, t2, t3, t4, t5], lastUpdated := t5 }) fp t6
      = ({ allowed := false,
           retryAfter := Option.some (mathCeilDiv (t1 + RATE_WINDOW_MS - t6) 1000) },
         Option.some { fingerprint := fp, timestamps := [t1, t2, t3, t4, t5], lastUpdated := t5 })
    ∧ 0 < mathCeilDiv (t1 + RATE_WINDOW_MS - t6) 1000
    ∧ checkInitRateLimit
        (Option.some { fingerprint := fp, timestamps := [t1, t2, t3, t4, t5], lastUpdated := t5 }) fp t7
      = ({ allowed := true, retryAfter := Option.none },
         Option.some { fingerprint := fp, timestamps := [t7], lastUpdated := t7 }) := by
  have hW : RATE_WINDOW_MS = 3600000 := by norm_num [RATE_WINDOW_MS]
  have hmin : listMin [t1, t2, t3, t4, t5] = t1 := by
    simp only [listMin, List.foldl]
    rw [min_eq_left h12, min_eq_left (le_trans h12 h23),
      min_eq_left (le_trans (le_trans h12 h23) h34),
      min_eq_left (le_trans (le_trans (le_trans h12 h23) h34) h45)]
  refine ⟨rfl, ?_, ?_, ?_, ?_, ?_, ?_, ?_⟩
  · exact checkInitRateLimit_allow _ _ _
      (by intro ts hts; simp at hts; omega) (by simp [MAX_INIT_PER_HOUR])
  · exact checkInitRateLimit_allow _ _ _
      (by intro ts hts; simp at hts; omega) (by simp [MAX_INIT_PER_HOUR])
  · exact checkInitRateLimit_allow _ _ _
      (by intro ts hts; simp at hts; omega) (by simp [MAX_INIT_PER_HOUR])
  · exact checkInitRateLimit_allow _ _ _
      (by intro ts hts; simp at hts; omega) (by simp [MAX_INIT_PER_HOUR])
  · have := checkInitRateLimit_deny
      { fingerprint := fp, timestamps := [t1, t2, t3, t4, t5], lastUpdated := t5 } fp t6
      (by intro ts hts; simp at hts; omega) (by simp [MAX_INIT_PER_HOUR])
    rw [hmin] at this
    exact this
  · exact mathCeilDiv_pos _ (by omega)
  · exact checkInitRateLimit_reset _ _ _
      (by intro ts hts; simp at hts; omega)

/-- Witness for C8 with requests at 0,1,2,3,4, a denied 6th at 5, and an
allowed 7th at 3600004 (after the window elapsed). -/
theorem c8_witness :
    checkInitRateLimit Option.none "ip" 0
      = ({ allowed := true, retryAfter := Option.none },
         Option.some { fingerprint := "ip", timestamps := [0], lastUpdated := 0 })
    ∧ checkInitRateLimit
        (Option.some { fingerprint := "ip", timestamps := [0], lastUpdated := 0 }) "ip" 1
      = ({ allowed := true, retryAfter := Option.none },
         Option.some { fingerprint := "ip", timestamps := [0, 1], lastUpdated := 1 })
    ∧ checkInitRateLimit
        (Option.some { fingerprint := "ip", timestamps := [0, 1], lastUpdated := 1 }) "ip" 2
      = ({ allowed := true, retryAfter := Option.none },
         Option.some { fingerprint := "ip", timestamps := [0, 1, 2], lastUpdated := 2 })
    ∧ checkInitRateLimit
        (Option.some { fingerprint := "ip", timestamps := [0, 1, 2], lastUpdated := 2 }) "ip" 3
      = ({ allowed := true, retryAfter := Option.none },
         Option.some { fingerprint := "ip", timestamps := [0, 1, 2, 3], lastUpdated := 3 })
    ∧ checkInitRateLimit
        (Option.some { fingerprint := "ip", timestamps := [0, 1, 2, 3], lastUpdated := 3 }) "ip" 4
      = ({ allowed := true, retryAfter := Option.none },
         Option.some { fingerprint := "ip", timestamps := [0, 1, 2, 3, 4], lastUpdated := 4 })
    ∧ checkInitRateLimit
        (Option.some { fingerprint := "ip", timestamps := [0, 1, 2, 3, 4], lastUpdated := 4 }) "ip" 5
      = ({ allowed := false,
           retryAfter := Option.some (mathCeilDiv (0 + RATE_WINDOW_MS - 5) 1000) },
         Option.some { fingerprint := "ip", timestamps := [0, 1, 2, 3, 4], lastUpdated := 4 })
    ∧ 0 < mathCeilDiv (0 + RATE_WINDOW_MS - 5) 1000
    ∧ checkInitRateLimit
        (Option.some { fingerprint := "ip", timestamps := [0, 1, 2, 3, 4], lastUpdated := 4 }) "ip" 3600004
      = ({ allowed := true, retryAfter := Option.none },
         Option.some { fingerprint := "ip", timestamps := [3600004], lastUpdated := 3600004 }) :=
  c8_rate_limiter_boundary "ip" 0 1 2 3 4 5 3600004
    (by norm_num) (by norm_num) (by norm_num) (by norm_num) (by norm_num)
    (by norm_num [RATE_WINDOW_MS]) (by norm_num [RATE_WINDOW_MS])

/-! ## Handle validation lemmas and claim C9 -/

/-- For lists of length ≠ 1 the combined pattern is the long pattern. -/
lemma matchesHandlePatternList_eq_long (l : List Char) (hl : l.length ≠ 1) :
    matchesHandlePatternList l = matchesHandleLongList l := by
  cases l with
  | nil => rfl
  | cons a t =>
    cases t with
    | nil => simp at hl
    | cons b t2 => rfl

/-- A string matching the combined pattern starts with a lowercase letter. -/
lemma matchesHandlePatternList_starts (l : List Char)
    (hp : matchesHandlePatternList l = true) : startsLowerList l = true := by
  cases l with
  | nil => simp [matchesHandlePatternList, matchesHandleLongList] at hp
  | cons a t =>
    cases t with
    | nil => simpa [matchesHandlePatternList, startsLowerList] using hp
    | cons b t2 =>
      simp only [matchesHandlePatternList, matchesHandleLongList,
        Bool.and_eq_true] at hp
      simpa [startsLowerList] using hp.1.1

/-- C9 counterexample: the creation path (apiKeys.create) and the rename
path (agents.update) do NOT produce the same verdict: `"ab--cd"` passes
the creation path's checks (it has no consecutive-hyphen test) but is
rejected by the rename path and by agentSignup's validateHandle. -/
theorem c9_counterexample :
    apiKeysCreateAcceptsHandle "ab--cd" = true
    ∧ agentsUpdateAcceptsHandle "ab--cd" = false
    ∧ validateHandle "ab--cd"
        = Option.some "Handle cannot contain consecutive hyphens" := by
  refine ⟨by decide, by decide, by decide⟩

/-- C9 amended: on handles that contain no consecutive hyphens and are
fixed by trim+lowercase normalization, the creation verdict, the rename
verdict and agentSignup's validateHandle coincide.  (The creation path
performs no normalization and no consecutive-hyphen check, which is
exactly where the paths diverge.) -/
theorem c9_handle_paths_agree (h : String)
    (hnorm : jsTrimLower h = h)
    (hd : hasDoubleHyphen h.data = false) :
    agentsUpdateAcceptsHandle h = apiKeysCreateAcceptsHandle h
    ∧ (apiKeysCreateAcceptsHandle h = true ↔ validateHandle h = Option.none) := by
  have hlen : h.length = h.data.length := rfl
  unfold agentsUpdateAcceptsHandle apiKeysCreateAcceptsHandle validateHandle
  rw [hnorm]
  by_cases h3 : h.length < 3
  · constructor
    · simp [h3, show ¬(3 ≤ h.length) from by omega]
    · simp [h3, show ¬(3 ≤ h.length) from by omega]
  · by_cases h30 : 30 < h.length
    · constructor
      · simp [h3, h30, show ¬(h.length ≤ 30) from by omega]
      · simp [h3, h30, show ¬(h.length ≤ 30) from by omega]
    · have hne1 : h.data.length ≠ 1 := by
        rw [← hlen]; omega
      have hpl : matchesHandlePattern h = matchesHandleLong h :=
        matchesHandlePatternList_eq_long h.data hne1
      rw [hpl]
      have hS : matchesHandleLong h = true → startsLowerList h.data = true := by
        intro hL
        apply matchesHandlePatternList_starts
        rw [matchesHandlePatternList_eq_long h.data hne1]
        exact hL
      constructor
      · cases hL : matchesHandleLong h with
        | false =>
          simp [hL, hd, h3, h30, show 1 < h.length from by omega,
            show 3 ≤ h.length from by omega, show h.length ≤ 30 from by omega]
        | true =>
          simp [hL, hd, h3, h30,
            show 3 ≤ h.length from by omega, show h.length ≤ 30 from by omega]
      · constructor
        · intro hc
          have hL : matchesHandleLong h = true := by
            cases hL : matchesHandleLong h with
            | false => simp [hL] at hc
            | true => rfl
          rw [if_neg h3, if_neg (by omega), if_neg (by simp [hS hL]),
            if_neg (by simp [hL]), if_neg (by simp [hd])]
        · intro hv
          rw [if_neg h3, if_neg (by omega)] at hv
          have hL : matchesHandleLong h = true := by
            cases hL : matchesHandleLong h with
            | false =>
              cases hSv : startsLowerList h.data with
              | false =>
                rw [if_pos (by simp [hSv])] at hv
                simp at hv
              | true =>
                rw [if_neg (by simp [hSv]), if_pos (by simp [hL])] at hv
                simp at hv
            | true => rfl
          simp [hL, show 3 ≤ h.length from by omega, show h.length ≤ 30 from by omega]

/-- Witness for the amended C9 at the concrete handle `"abc"`. -/
theorem c9_witness :
    jsTrimLower "abc" = "abc"
    ∧ hasDoubleHyphen "abc".data = false
    ∧ (agentsUpdateAcceptsHandle "abc" = apiKeysCreateAcceptsHandle "abc"
       ∧ (apiKeysCreateAcceptsHandle "abc" = true ↔ validateHandle "abc" = Option.none)) :=
  ⟨by decide, by decide, c9_handle_paths_agree "abc" (by decide) (by decide)⟩

/-! ## Token lemmas and claim C7 -/

/-- Bitwise or of naturals is zero iff both are. -/
lemma nat_or_eq_zero_iff (a b : Nat) : a ||| b = 0 ↔ a = 0 ∧ b = 0 := by
  constructor
  · intro h
    constructor
    · apply Nat.eq_of_testBit_eq
      intro i
      have h2 := congrArg (fun n => n.testBit i) h
      simp only [Nat.testBit_or, Nat.zero_testBit] at h2 ⊢
      exact (Bool.or_eq_false_iff.mp h2).1
    · apply Nat.eq_of_testBit_eq
      intro i
      have h2 := congrArg (fun n => n.testBit i) h
      simp only [Nat.testBit_or, Nat.zero_testBit] at h2 ⊢
      exact (Bool.or_eq_false_iff.mp h2).2
  · rintro ⟨rfl, rfl⟩
    rfl

/-- A foldl of bitwise ors is zero iff the seed and every element are. -/
lemma foldl_or_eq_zero (l : List Nat) (r : Nat) :
    (l.foldl (fun a x => a ||| x) r = 0) ↔ (r = 0 ∧ ∀ x ∈ l, x = 0) := by
  induction l generalizing r with
  | nil => simp
  | cons x xs ih =>
    simp only [List.foldl_cons, ih, List.mem_cons]
    constructor
    · rintro ⟨hrx, hall⟩
      have h2 := (nat_or_eq_zero_iff r x).mp hrx
      exact ⟨h2.1, fun y hy => hy.elim (fun e => e ▸ h2.2) (hall y)⟩
    · rintro ⟨hr, hall⟩
      refine ⟨?_, fun y hy => hall y (Or.inr hy)⟩
      rw [hr, hall x (Or.inl rfl)]
      rfl

/-- Characters with equal code points are equal. -/
lemma char_eq_of_toNat_eq (c d : Char) (h : c.toNat = d.toNat) : c = d := by
  have hv : c.val = d.val := by
    have h1 : c.val.toNat = d.val.toNat := h
    exact UInt32.toNat.inj h1
  exact Char.ext hv

/-- Equal-length character lists whose zipped code points all xor to
zero are equal. -/
lemma zip_xor_zero_eq (la : List Char) : ∀ (lb : List Char),
    la.length = lb.length →
    (∀ cc ∈ la.zip lb, cc.1.toNat ^^^ cc.2.toNat = 0) → la = lb := by
  induction la with
  | nil =>
    intro lb hlen _
    cases lb with
    | nil => rfl
    | cons b tb => simp at hlen
  | cons a ta ih =>
    intro lb hlen hall
    cases lb with
    | nil => simp at hlen
    | cons b tb =>
      have h1 : a.toNat ^^^ b.toNat = 0 := hall (a, b) (by simp)
      have hab : a = b := char_eq_of_toNat_eq _ _ (Nat.xor_eq_zero.mp h1)
      have ht : ta = tb :=
        ih tb (by simpa using hlen) (fun cc hcc => hall cc (by simp [hcc]))
      rw [hab, ht]

/-- Soundness of the constant-time comparison: a `true` result means the
strings are equal. -/
lemma constantTimeEqual_sound (a b : String) (h : constantTimeEqual a b = true) :
    a = b := by
  have hlen : a.length = b.length := by
    by_contra hne
    simp [constantTimeEqual, hne] at h
  rw [constantTimeEqual, if_neg (by simp [hlen])] at h
  have h1 : (a.data.zip b.data).foldl
      (fun r cc => r ||| (cc.1.toNat ^^^ cc.2.toNat)) 0 = 0 := by
    simpa using h
  rw [show (fun (r : Nat) (cc : Char × Char) => r ||| (cc.1.toNat ^^^ cc.2.toNat))
      = (fun r cc => (fun x y => x ||| y) r ((fun cc : Char × Char =>
          cc.1.toNat ^^^ cc.2.toNat) cc)) from rfl,
    ← List.foldl_map] at h1
  have h2 := ((foldl_or_eq_zero _ _).mp h1).2
  have hdata : a.data = b.data := by
    apply zip_xor_zero_eq a.data b.data hlen
    intro cc hcc
    exact h2 _ (List.mem_map_of_mem _ hcc)
  cases a
  cases b
  exact congrArg String.mk (by simpa using hdata)

/-- C7: (1) a token whose base64url decode fails verifies to null;
(2) a decoded token with a field count other than 3, or a non-numeric
expiry, verifies to null, and one whose signature differs from the HMAC
of its data (in particular in a single bit) verifies with
`isValid = false`; (3) `claimAgentPublic` given a valid-signature token
whose embedded expiry is before the current time rejects with reason
"expired" and leaves the state unchanged. -/
theorem c7_token_rejection (hmacHex : String → String) :
    (∀ token, atobJs (b64urlToStd token) = Option.none →
      verifyClaimToken hmacHex token = Option.none)
    ∧ (∀ token decoded, atobJs (b64urlToStd token) = Option.some decoded →
        ((jsSplitColon decoded).length ≠ 3 →
          verifyClaimToken hmacHex token = Option.none)
        ∧ (∀ rid estr sig, jsSplitColon decoded = [rid, estr, sig] →
            (jsParseInt estr = Option.none →
              verifyClaimToken hmacHex token = Option.none)
            ∧ (sig ≠ hmacHex (rid ++ ":" ++ estr) →
              ∀ r, verifyClaimToken hmacHex token = Option.some r →
                r.isValid = false)))
    ∧ (∀ (st : ClaimState) (token : String) (now : Int) (u : Nat)
        (user : UserRec) (r : ClaimTokenResult),
        findUser st.users u = Option.some user →
        user.isAgentCreated = false →
        verifyClaimToken hmacHex token = Option.some r →
        r.isValid = true →
        r.expiry < now →
        claimAgentPublic st (Option.some u) token hmacHex now
          = ({ success := false, error := Option.some "expired" }, st)) := by
  refine ⟨?_, ?_, ?_⟩
  · intro token hdec
    unfold verifyClaimToken
    rw [hdec]
  · intro token decoded hdec
    constructor
    · intro h3
      unfold verifyClaimToken
      rw [hdec]
      rcases hsp : jsSplitColon decoded with _ | ⟨a1, _ | ⟨a2, _ | ⟨a3, _ | ⟨a4, rest⟩⟩⟩⟩
      · simp [hsp]
      · simp [hsp]
      · simp [hsp]
      · exact absurd (by rw [hsp]; rfl) h3
      · simp [hsp]
    · intro rid estr sig hsp
      constructor
      · intro hpi
        unfold verifyClaimToken
        rw [hdec]
        simp [hsp, hpi]
      · intro hsig r hver
        unfold verifyClaimToken at hver
        rw [hdec] at hver
        simp only [hsp] at hver
        cases hpi : jsParseInt estr with
        | none => simp [hpi] at hver
        | some e =>
          simp only [hpi, Option.some.injEq] at hver
          cases hc : constantTimeEqual sig (hmacHex (rid ++ ":" ++ estr)) with
          | true => exact absurd (constantTimeEqual_sound _ _ hc) hsig
          | false =>
            rw [← hver]
            simpa using hc
  · intro st token now u user r hfu hagent hver hvalid hexp
    simp [claimAgentPublic, hfu, hagent, hver, hvalid, hexp]

/-- The human account used by the C7 witness. -/
def claimUserW : UserRec :=
  { id := 1
    email := Option.none
    githubUsername := Option.none
    isAgentCreated := false
    absorbedInto := Option.none
    claimedAt := Option.none
    updatedAt := 0 }

/-- The state used by the C7 witness. -/
def claimStateW : ClaimState :=
  { users := [claimUserW]
    agents := []
    apiKeys := []
    posts := []
    comments := []
    commentLikes := []
    requests := [] }

/-- Witness for C7: a malformed token, a 2-field token, a token with a
non-numeric expiry, a token whose signature mismatches the mac by one
hex digit, and a validly signed token with expiry 5 presented at time
10, under the mac `fun _ => "ab"`. -/
theorem c7_witness :
    atobJs (b64urlToStd "%") = Option.none
    ∧ verifyClaimToken (fun _ => "ab") "%" = Option.none
    ∧ verifyClaimToken (fun _ => "ab") "cjE6NQ" = Option.none
    ∧ verifyClaimToken (fun _ => "ab") "Ojo" = Option.none
    ∧ ClaimTokenResult.isValid
        { signupRequestId := "r1", expiry := 5, isValid := false } = false
    ∧ verifyClaimToken (fun _ => "ab") "cjE6NTphYg"
        = Option.some { signupRequestId := "r1", expiry := 5, isValid := true }
    ∧ claimAgentPublic claimStateW (Option.some 1) "cjE6NTphYg" (fun _ => "ab") 10
        = ({ success := false, error := Option.some "expired" }, claimStateW) := by
  refine ⟨by decide, (c7_token_rejection (fun _ => "ab")).1 "%" (by decide),
    ((c7_token_rejection (fun _ => "ab")).2.1 "cjE6NQ" "r1:5" (by decide)).1 (by decide),
    (((c7_token_rejection (fun _ => "ab")).2.1 "Ojo" "::" (by decide)).2 "" "" ""
      (by decide)).1 (by decide),
    (((c7_token_rejection (fun _ => "ab")).2.1 "cjE6NTphYQ" "r1:5:aa" (by decide)).2
      "r1" "5" "aa" (by decide)).2 (by decide)
      { signupRequestId := "r1", expiry := 5, isValid := false } (by decide),
    by decide,
    (c7_token_rejection (fun _ => "ab")).2.2 claimStateW "cjE6NTphYg" 10 1 claimUserW
      { signupRequestId := "r1", expiry := 5, isValid := true }
      (by decide) (by decide) (by decide) (by decide) (by decide)⟩

/-! ## Find/patch lemmas -/

lemma findPost_id (posts : List Post) (pid : Nat) (p : Post)
    (h : findPost posts pid = Option.some p) : p.id = pid := by
  have := List.find?_some h
  simpa using this

lemma findPost_mem (posts : List Post) (pid : Nat) (p : Post)
    (h : findPost posts pid = Option.some p) : p ∈ posts :=
  List.mem_of_find?_eq_some h

/-- A patch that only rewrites the post with id `i` (to a post that
keeps id `i`) does not change lookups of other ids. -/
lemma findPost_map_guard (posts : List Post) (i j : Nat) (f : Post → Post)
    (hid : ∀ p, p.id = i → (f p).id = i) (hne : j ≠ i) :
    findPost (posts.map (fun p => if p.id == i then f p else p)) j
      = findPost posts j := by
  induction posts with
  | nil => rfl
  | cons p rest ih =>
    simp only [findPost] at ih ⊢
    rw [List.map_cons]
    by_cases hpi : p.id = i
    · have h1 : (if p.id == i then f p else p) = f p := by simp [hpi]
      have h2 : (f p).id = i := hid p hpi
      rw [h1, List.find?_cons_of_neg _ (by simp [h2]; exact fun e => hne e.symm),
        List.find?_cons_of_neg _ (by simp [hpi]; exact fun e => hne e.symm)]
      exact ih
    · have h1 : (if p.id == i then f p else p) = p := by simp [hpi]
      rw [h1]
      by_cases hpj : p.id = j
      · rw [List.find?_cons_of_pos _ (by simp [hpj]),
          List.find?_cons_of_pos _ (by simp [hpj])]
      · rw [List.find?_cons_of_neg _ (by simp [hpj]),
          List.find?_cons_of_neg _ (by simp [hpj])]
        exact ih

/-- Looking up the patched id returns the transformed found post. -/
lemma findPost_map_self (posts : List Post) (i : Nat) (f : Post → Post)
    (hid : ∀ p, p.id = i → (f p).id = i) :
    findPost (posts.map (fun p => if p.id == i then f p else p)) i
      = (findPost posts i).map f := by
  induction posts with
  | nil => rfl
  | cons p rest ih =>
    simp only [findPost] at ih ⊢
    rw [List.map_cons]
    by_cases hpi : p.id = i
    · have h1 : (if p.id == i then f p else p) = f p := by simp [hpi]
      have h2 : (f p).id = i := hid p hpi
      rw [h1, List.find?_cons_of_pos _ (by simp [h2]),
        List.find?_cons_of_pos _ (by simp [hpi])]
      rfl
    · have h1 : (if p.id == i then f p else p) = p := by simp [hpi]
      rw [h1, List.find?_cons_of_neg _ (by simp [hpi]),
        List.find?_cons_of_neg _ (by simp [hpi])]
      exact ih

/-- `patchPost` does not change lookups of other ids. -/
lemma findPost_patchPost_ne (posts : List Post) (pid j : Nat) (np : Post)
    (hnp : np.id = pid) (hne : j ≠ pid) :
    findPost (patchPost posts pid np) j = findPost posts j :=
  findPost_map_guard posts pid j (fun _ => np) (fun _ _ => hnp) hne

/-- Looking up the patched id after `patchPost` returns the new post
when the id was present. -/
lemma findPost_patchPost_self (posts : List Post) (pid : Nat) (np : Post)
    (hnp : np.id = pid) :
    findPost (patchPost posts pid np) pid
      = (findPost posts pid).map (fun _ => np) :=
  findPost_map_self posts pid (fun _ => np) (fun _ _ => hnp)

/-- An id-preserving guarded patch preserves the id column. -/
lemma map_id_guard (posts : List Post) (i : Nat) (f : Post → Post)
    (hid : ∀ p, (f p).id = p.id) :
    (posts.map (fun p => if p.id == i then f p else p)).map Post.id
      = posts.map Post.id := by
  rw [List.map_map]
  apply List.map_congr_left
  intro p hp
  by_cases hpi : p.id = i <;> simp [hpi, hid]

/-- In a table with unique ids, every member is found at its own id. -/
lemma findPost_eq_of_mem (posts : List Post) (p : Post)
    (hnd : (posts.map Post.id).Nodup) (hmem : p ∈ posts) :
    findPost posts p.id = Option.some p := by
  induction posts with
  | nil => cases hmem
  | cons q rest ih =>
    simp only [List.map_cons, List.nodup_cons] at hnd
    rcases List.mem_cons.mp hmem with rfl | hmem2
    · simp only [findPost]
      rw [List.find?_cons_of_pos _ (by simp)]
    · have hq : ¬(q.id = p.id) := by
        intro he
        exact hnd.1 (he ▸ List.mem_map_of_mem Post.id hmem2)
      simp only [findPost]
      rw [List.find?_cons_of_neg rest
        (show ¬((fun x : Post => x.id == p.id) q = true) by simpa using hq)]
      exact ih hnd.2 hmem2

/-- Two members of a unique-id table with the same id are equal. -/
lemma eq_of_mem_same_id (posts : List Post) (p q : Post)
    (hnd : (posts.map Post.id).Nodup) (hp : p ∈ posts) (hq : q ∈ posts)
    (hid : p.id = q.id) : p = q :=
  List.inj_on_of_nodup_map hnd hp hq hid

/-! ## Review-action lemmas and claims C4, C6 -/

/-- approve on a post that is no longer `needs_review` succeeds without
touching the state. -/
lemma approveAuthed_nonreview (db : PostsDB) (u pid : Nat) (t c : Option String)
    (a : Option Nat) (now : Int) (post : Post)
    (hfp : findPost db.posts pid = Option.some post)
    (hperm : approvePermitted db u post = true)
    (hst : post.status ≠ PostStatus.needs_review) :
    approveAuthed db u pid t c a now = Except.ok db := by
  unfold approveAuthed
  simp only [hfp]
  rw [if_neg (by simp only [approvePermitted] at hperm; simp [hperm]),
    if_pos (by simpa using hst)]

/-- decline on a post that is no longer `needs_review` succeeds without
touching the state. -/
lemma declineAuthed_nonreview (db : PostsDB) (u pid : Nat) (r : Option String)
    (now : Int) (post : Post)
    (hfp : findPost db.posts pid = Option.some post)
    (hperm : declinePermitted db u post = true)
    (hst : post.status ≠ PostStatus.needs_review) :
    declineAuthed db u pid r now = Except.ok db := by
  unfold declineAuthed
  simp only [hfp]
  rw [if_neg (by simp only [declinePermitted] at hperm; simp [hperm]),
    if_pos (by simpa using hst)]

/-- Link permission only depends on the post's agent reference. -/
lemma linkedViaAgent_congr (agents : List Agent) (u : Nat) (p q : Post)
    (h : p.agentId = q.agentId) :
    linkedViaAgent agents u p = linkedViaAgent agents u q := by
  unfold linkedViaAgent
  rw [h]

/-- C4: review actions are idempotent.  A second approve (or decline) on
the state produced by a successful first call returns success and leaves
the state — every field of the post included — unchanged, and more
generally approve/decline by a permitted caller on any post whose status
is not `needs_review` is a successful no-op. -/
theorem c4_review_idempotence (db : PostsDB) (u pid : Nat)
    (t c t' c' : Option String) (a a' : Option Nat) (r r' : Option String)
    (now now' : Int) :
    (∀ db1, approve db (Option.some u) pid t c a now = Except.ok db1 →
        approve db1 (Option.some u) pid t' c' a' now' = Except.ok db1)
    ∧ (∀ db1, decline db (Option.some u) pid r now = Except.ok db1 →
        decline db1 (Option.some u) pid r' now' = Except.ok db1)
    ∧ (∀ p, findPost db.posts pid = Option.some p →
        p.status ≠ PostStatus.needs_review →
        (approvePermitted db u p = true →
          approve db (Option.some u) pid t c a now = Except.ok db)
        ∧ (declinePermitted db u p = true →
          decline db (Option.some u) pid r now = Except.ok db)) := by
  refine ⟨?_, ?_, ?_⟩
  · intro db1 ha
    have ha' : approveAuthed db u pid t c a now = Except.ok db1 := ha
    show approveAuthed db1 u pid t' c' a' now' = Except.ok db1
    cases a with
    | none =>
      unfold approveAuthed at ha'
      split at ha'
      · exact absurd ha' (by simp)
      next post hfp =>
        have hpid : post.id = pid := findPost_id _ _ _ hfp
        split at ha'
        · exact absurd ha' (by simp)
        next hpermN =>
          have hperm : (isAdminUser db.users u || linkedViaAgent db.agents u post
              || post.userId == u) = true := by
            revert hpermN
            cases isAdminUser db.users u || linkedViaAgent db.agents u post
              || post.userId == u <;> simp
          split at ha'
          next hst =>
            have hdb : db = db1 := Except.ok.inj ha'
            subst hdb
            exact approveAuthed_nonreview db u pid t' c' a' now' post hfp
              (by simpa [approvePermitted] using hperm) (by simpa using hst)
          next hstN =>
            have hdb : withPosts db (patchPost db.posts pid
                (approvedPost post u t c Option.none now)) = db1 :=
              Except.ok.inj ha'
            rw [← hdb]
            have hnpid : (approvedPost post u t c Option.none now).id = pid := by
              simpa [approvedPost] using hpid
            have hfind1 : findPost (patchPost db.posts pid
                (approvedPost post u t c Option.none now)) pid
                = Option.some (approvedPost post u t c Option.none now) := by
              rw [findPost_patchPost_self _ _ _ hnpid, hfp]
              rfl
            have hlink : linkedViaAgent db.agents u
                (approvedPost post u t c Option.none now)
                = linkedViaAgent db.agents u post :=
              linkedViaAgent_congr _ _ _ _ (by simp [approvedPost])
            have huid : (approvedPost post u t c Option.none now).userId
                = post.userId := by
              simp [approvedPost]
            unfold approveAuthed
            simp only [withPosts]
            simp only [hfind1]
            rw [if_neg (by simp only [hlink, huid]; simp [hperm]),
              if_pos (by simp [approvedPost])]
    | some aid =>
      unfold approveAuthed at ha'
      split at ha'
      · exact absurd ha' (by simp)
      next post hfp =>
        have hpid : post.id = pid := findPost_id _ _ _ hfp
        split at ha'
        · exact absurd ha' (by simp)
        next hpermN =>
          split at ha'
          next hst =>
            have hperm : (isAdminUser db.users u || linkedViaAgent db.agents u post
                || post.userId == u) = true := by
              revert hpermN
              cases isAdminUser db.users u || linkedViaAgent db.agents u post
                || post.userId == u <;> simp
            have hdb : db = db1 := Except.ok.inj ha'
            subst hdb
            exact approveAuthed_nonreview db u pid t' c' a' now' post hfp
              (by simpa [approvePermitted] using hperm) (by simpa using hst)
          next hstN =>
            replace ha' : (if !isAdminUser db.users u then
                Except.error ErrCode.FORBIDDEN
              else if (findAgent db.agents aid).isSome then
                Except.ok (withPosts db (patchPost db.posts pid
                  (approvedPost post u t c (Option.some aid) now)))
              else Except.error ErrCode.NOT_FOUND) = Except.ok db1 := ha'
            split at ha'
            · exact absurd ha' (by simp)
            next hadmN =>
              have hadm : isAdminUser db.users u = true := by
                revert hadmN
                cases isAdminUser db.users u <;> simp
              split at ha'
              next hag =>
                have hdb : withPosts db (patchPost db.posts pid
                    (approvedPost post u t c (Option.some aid) now)) = db1 :=
                  Except.ok.inj ha'
                rw [← hdb]
                have hnpid : (approvedPost post u t c (Option.some aid) now).id
                    = pid := by
                  simpa [approvedPost] using hpid
                have hfind1 : findPost (patchPost db.posts pid
                    (approvedPost post u t c (Option.some aid) now)) pid
                    = Option.some (approvedPost post u t c (Option.some aid) now) := by
                  rw [findPost_patchPost_self _ _ _ hnpid, hfp]
                  rfl
                unfold approveAuthed
                simp only [withPosts]
                simp only [hfind1]
                rw [if_neg (by simp [hadm]),
                  if_pos (by simp [approvedPost])]
              · exact absurd ha' (by simp)
  · intro db1 hd
    have hd' : declineAuthed db u pid r now = Except.ok db1 := hd
    show declineAuthed db1 u pid r' now' = Except.ok db1
    unfold declineAuthed at hd'
    split at hd'
    · exact absurd hd' (by simp)
    next post hfp =>
      have hpid : post.id = pid := findPost_id _ _ _ hfp
      split at hd'
      · exact absurd hd' (by simp)
      next hpermN =>
        have hperm : (linkedViaAgent db.agents u post || post.userId == u)
            = true := by
          revert hpermN
          cases linkedViaAgent db.agents u post || post.userId == u <;> simp
        split at hd'
        next hst =>
          have hdb : db = db1 := Except.ok.inj hd'
          subst hdb
          exact declineAuthed_nonreview db u pid r' now' post hfp
            (by simpa [declinePermitted] using hperm) (by simpa using hst)
        next hstN =>
          have hdb : withPosts db (patchPost db.posts pid
              (declinedPost post u r now)) = db1 := Except.ok.inj hd'
          rw [← hdb]
          have hnpid : (declinedPost post u r now).id = pid := by
            simpa [declinedPost] using hpid
          have hfind1 : findPost (patchPost db.posts pid
              (declinedPost post u r now)) pid
              = Option.some (declinedPost post u r now) := by
            rw [findPost_patchPost_self _ _ _ hnpid, hfp]
            rfl
          have hlink : linkedViaAgent db.agents u (declinedPost post u r now)
              = linkedViaAgent db.agents u post :=
            linkedViaAgent_congr _ _ _ _ (by simp [declinedPost])
          have huid : (declinedPost post u r now).userId = post.userId := by
            simp [declinedPost]
          unfold declineAuthed
          simp only [withPosts]
          simp only [hfind1]
          rw [if_neg (by simp only [hlink, huid]; simp [hperm]),
            if_pos (by simp [declinedPost])]
  · intro p hfp hst
    constructor
    · intro hperm
      exact approveAuthed_nonreview db u pid t c a now p hfp hperm hst
    · intro hperm
      exact declineAuthed_nonreview db u pid r now p hfp hperm hst

/-- The compiled-in admin account (email on the allow-list). -/
def adminUserW : UserRec :=
  { id := 1
    email := Option.some "vivek.r.raja@gmail.com"
    githubUsername := Option.none
    isAgentCreated := false
    absorbedInto := Option.none
    claimedAt := Option.none
    updatedAt := 0 }

/-- A review state: post 20 (agent 10, legacy owner 3) awaiting review,
agent 10 linked to human 2, and admin account 1 present. -/
def reviewDbW : PostsDB :=
  { posts := [samplePost]
    agents := [{ sampleAgent with linkedUserId := Option.some 2 }]
    users := [adminUserW] }

/-- Post 20 after the linked human 2 approves it at time 7. -/
def apvPostW : Post :=
  { samplePost with
      status := PostStatus.approved
      reviewedAt := Option.some 7
      reviewedBy := Option.some 2
      updatedAt := 7
      publishedAt := Option.some 7
      isHumanVerified := Option.some true
      searchText := "t c p l" }

/-- The state after the linked human 2 approves post 20 at time 7. -/
def approvedDbW : PostsDB :=
  { reviewDbW with posts := [apvPostW] }

/-- Post 20 after the legacy owner 3 declines it at time 7. -/
def decPostW : Post :=
  { samplePost with
      status := PostStatus.declined
      reviewedAt := Option.some 7
      reviewedBy := Option.some 3
      updatedAt := 7 }

/-- The state after the legacy owner 3 declines post 20 at time 7. -/
def declinedDbW : PostsDB :=
  { reviewDbW with posts := [decPostW] }

/-- Witness for C4: the linked human approves post 20; approving again
returns success with the state unchanged; likewise for a decline by the
legacy owner; and a no-op approve/decline on the already-approved post. -/
theorem c4_witness :
    approve reviewDbW (Option.some 2) 20 Option.none Option.none Option.none 7
      = Except.ok approvedDbW
    ∧ approve approvedDbW (Option.some 2) 20 Option.none Option.none Option.none 8
      = Except.ok approvedDbW
    ∧ decline reviewDbW (Option.some 3) 20 Option.none 7 = Except.ok declinedDbW
    ∧ decline declinedDbW (Option.some 3) 20 Option.none 8 = Except.ok declinedDbW
    ∧ approve approvedDbW (Option.some 2) 20 Option.none Option.none Option.none 9
      = Except.ok approvedDbW
    ∧ decline declinedDbW (Option.some 3) 20 Option.none 9 = Except.ok declinedDbW := by
  have h1 : approve reviewDbW (Option.some 2) 20 Option.none Option.none Option.none 7
      = Except.ok approvedDbW := by decide
  have h2 : decline reviewDbW (Option.some 3) 20 Option.none 7
      = Except.ok declinedDbW := by decide
  refine ⟨h1,
    (c4_review_idempotence reviewDbW 2 20 Option.none Option.none Option.none
      Option.none Option.none Option.none Option.none Option.none 7 8).1
      approvedDbW h1,
    h2,
    (c4_review_idempotence reviewDbW 3 20 Option.none Option.none Option.none
      Option.none Option.none Option.none Option.none Option.none 7 8).2.1
      declinedDbW h2,
    ((c4_review_idempotence approvedDbW 2 20 Option.none Option.none Option.none
      Option.none Option.none Option.none Option.none Option.none 9 9).2.2
      apvPostW (by decide) (by decide)).1 (by decide),
    ((c4_review_idempotence declinedDbW 3 20 Option.none Option.none Option.none
      Option.none Option.none Option.none Option.none Option.none 9 9).2.2
      decPostW (by decide) (by decide)).2 (by decide)⟩

/-- C6 counterexample: the permission models differ.  The admin account
(user 1), neither linked to post 20's agent nor its legacy owner, can
approve the post but gets FORBIDDEN from decline. -/
theorem c6_counterexample :
    decline reviewDbW (Option.some 1) 20 Option.none 5
      = Except.error ErrCode.FORBIDDEN
    ∧ approve reviewDbW (Option.some 1) 20 Option.none Option.none Option.none 5
        ≠ Except.error ErrCode.FORBIDDEN
    ∧ isAdminUser reviewDbW.users 1 = true
    ∧ linkedViaAgent reviewDbW.agents 1 samplePost = false
    ∧ samplePost.userId ≠ 1 := by
  refine ⟨by decide, by decide, by decide, by decide, by decide⟩

/-- C6 amended: decline's permission model admits exactly the human
linked to the post's agent and the legacy owner — there is no admin
branch — while approve additionally admits admins: an admin caller is
never FORBIDDEN from approve. -/
theorem c6_decline_permission (db : PostsDB) (u pid : Nat) (p : Post)
    (r t c : Option String) (now : Int)
    (hfp : findPost db.posts pid = Option.some p) :
    (decline db (Option.some u) pid r now = Except.error ErrCode.FORBIDDEN
      ↔ ¬(linkedViaAgent db.agents u p = true ∨ p.userId = u))
    ∧ (isAdminUser db.users u = true →
        approve db (Option.some u) pid t c Option.none now
          ≠ Except.error ErrCode.FORBIDDEN) := by
  constructor
  · show declineAuthed db u pid r now = Except.error ErrCode.FORBIDDEN ↔ _
    unfold declineAuthed
    simp only [hfp]
    cases hp : linkedViaAgent db.agents u p || p.userId == u with
    | true =>
      rw [if_neg (by simp [hp])]
      constructor
      · intro h
        by_cases hs : (p.status != PostStatus.needs_review) = true
        · rw [if_pos hs] at h
          exact Except.noConfusion h
        · rw [if_neg hs] at h
          exact Except.noConfusion h
      · intro hn
        exfalso
        apply hn
        have hp' : linkedViaAgent db.agents u p = true ∨ p.userId = u := by
          simpa using hp
        exact hp'
    | false =>
      rw [if_pos (by simp [hp])]
      constructor
      · intro _
        intro hdisj
        rcases hdisj with h1 | h1
        · simp [h1] at hp
        · simp [h1] at hp
      · intro _
        rfl
  · intro hadm heq
    have heq' : approveAuthed db u pid t c Option.none now
        = Except.error ErrCode.FORBIDDEN := heq
    unfold approveAuthed at heq'
    simp only [hfp] at heq'
    rw [if_neg (by simp [hadm])] at heq'
    by_cases hs : (p.status != PostStatus.needs_review) = true
    · rw [if_pos hs] at heq'
      exact Except.noConfusion heq'
    · rw [if_neg hs] at heq'
      exact Except.noConfusion heq'

/-- Witness for the amended C6: in the concrete review state, the admin
(user 1) is FORBIDDEN from decline exactly because they are neither
linked nor owner, and is never FORBIDDEN from approve. -/
theorem c6_witness :
    (decline reviewDbW (Option.some 1) 20 Option.none 5
        = Except.error ErrCode.FORBIDDEN
      ↔ ¬(linkedViaAgent reviewDbW.agents 1 samplePost = true ∨ samplePost.userId = 1))
    ∧ (isAdminUser reviewDbW.users 1 = true →
        approve reviewDbW (Option.some 1) 20 Option.none Option.none Option.none 5
          ≠ Except.error ErrCode.FORBIDDEN) :=
  c6_decline_permission reviewDbW 1 20 samplePost Option.none Option.none Option.none 5
    (by decide)

/-! ## Sweep lemmas and claim C3 -/

/-- The sweep fold splits into its three components. -/
lemma sweep_foldl_split (now : Int) (pending : List Post) :
    ∀ acc : SweepResult,
      pending.foldl (fun acc post =>
        { posts := autoPublishMutation now acc.posts post.id
          notifications := acc.notifications ++ [(post.id, post.userId)]
          processed := acc.processed + 1 }) acc
      = { posts := pending.foldl (fun ps q => autoPublishMutation now ps q.id) acc.posts
          notifications := acc.notifications ++ pending.map (fun q => (q.id, q.userId))
          processed := acc.processed + pending.length } := by
  induction pending with
  | nil =>
    intro acc
    simp
  | cons q rest ih =>
    intro acc
    rw [List.foldl_cons, ih, List.foldl_cons]
    congr 1
    · simp
    · dsimp only
      simp only [List.length_cons]
      omega

/-- One sweep run, split into components. -/
lemma processAutoPublish_eq (now : Int) (posts : List Post) :
    processAutoPublish now posts
      = { posts := (getPendingAutoPublish now posts).foldl
            (fun ps q => autoPublishMutation now ps q.id) posts
          notifications := (getPendingAutoPublish now posts).map
            (fun q => (q.id, q.userId))
          processed := (getPendingAutoPublish now posts).length } := by
  unfold processAutoPublish
  rw [sweep_foldl_split]
  simp

/-- The sweep's per-batch fold, characterized as a pointwise map when
ids are unique and every pending entry is found in the table. -/
lemma fold_autoPublish (now : Int) (pending : List Post) :
    ∀ posts : List Post,
      (posts.map Post.id).Nodup →
      (pending.map Post.id).Nodup →
      (∀ q ∈ pending, findPost posts q.id = Option.some q) →
      pending.foldl (fun ps q => autoPublishMutation now ps q.id) posts
        = posts.map (fun p =>
            if (pending.map Post.id).contains p.id
                && (p.status == PostStatus.needs_review && !p.isDeleted)
            then autoPublishPatch now p else p) := by
  induction pending with
  | nil =>
    intro posts _ _ _
    simp
  | cons q rest ih =>
    intro posts hpost hpend hfind
    have hq : findPost posts q.id = Option.some q := hfind q (List.mem_cons_self _ _)
    have hqmem : q ∈ posts := findPost_mem _ _ _ hq
    have hqid_notin : q.id ∉ rest.map Post.id := by
      simp only [List.map_cons, List.nodup_cons] at hpend
      exact hpend.1
    have hpend' : (rest.map Post.id).Nodup := by
      simp only [List.map_cons, List.nodup_cons] at hpend
      exact hpend.2
    rw [List.foldl_cons]
    cases hg : q.status == PostStatus.needs_review && !q.isDeleted with
    | false =>
      have hmut : autoPublishMutation now posts q.id = posts := by
        unfold autoPublishMutation
        simp only [hq]
        rw [if_neg (by simp [hg])]
      rw [hmut, ih posts hpost hpend'
        (fun r hr => hfind r (List.mem_cons_of_mem _ hr))]
      apply List.map_congr_left
      intro p hp
      by_cases hpq : p.id = q.id
      · have hpeq : p = q := eq_of_mem_same_id posts p q hpost hp hqmem hpq
        rw [hpeq]
        simp [hg]
      · simp [hpq]
    | true =>
      have hmut : autoPublishMutation now posts q.id
          = posts.map (fun p => if p.id == q.id then autoPublishPatch now p else p) := by
        unfold autoPublishMutation
        simp only [hq]
        rw [if_pos (by simp [hg])]
      rw [hmut]
      have hid_pres : ∀ p : Post, (autoPublishPatch now p).id = p.id := fun p => rfl
      have hids1 : ((posts.map (fun p =>
          if p.id == q.id then autoPublishPatch now p else p)).map Post.id)
          = posts.map Post.id := map_id_guard posts q.id _ hid_pres
      have hpost1 : ((posts.map (fun p =>
          if p.id == q.id then autoPublishPatch now p else p)).map Post.id).Nodup := by
        rw [hids1]
        exact hpost
      have hfind1 : ∀ r ∈ rest, findPost (posts.map (fun p =>
          if p.id == q.id then autoPublishPatch now p else p)) r.id
          = Option.some r := by
        intro r hr
        have hrne : r.id ≠ q.id := by
          intro he
          exact hqid_notin (he ▸ List.mem_map_of_mem Post.id hr)
        rw [findPost_map_guard posts q.id r.id _
          (fun p hp => by rw [hid_pres, hp]) hrne]
        exact hfind r (List.mem_cons_of_mem _ hr)
      rw [ih _ hpost1 hpend' hfind1, List.map_map]
      apply List.map_congr_left
      intro p hp
      simp only [Function.comp_apply]
      by_cases hpq : p.id = q.id
      · have hpeq : p = q := eq_of_mem_same_id posts p q hpost hp hqmem hpq
        rw [hpeq]
        simp [hg, autoPublishPatch]
      · simp [hpq]


/-- C3: one run of the deadline sweep transitions exactly the eligible
posts — `needs_review`, past deadline, not deleted — to `auto_published`
with `publishedAt` and `isHumanVerified := false` set, leaves every
other post unchanged, and an immediate re-run transitions zero posts. -/
theorem c3_sweep_exactness (posts : List Post) (now : Int)
    (hids : (posts.map Post.id).Nodup)
    (hcount : (posts.filter (autoPublishEligible now)).length ≤ 100) :
    (processAutoPublish now posts).posts
        = posts.map (fun p =>
            if autoPublishEligible now p then autoPublishPatch now p else p)
    ∧ processAutoPublish now (processAutoPublish now posts).posts
        = { posts := (processAutoPublish now posts).posts
            notifications := []
            processed := 0 } := by
  have hpend : getPendingAutoPublish now posts
      = posts.filter (autoPublishEligible now) := by
    unfold getPendingAutoPublish
    exact List.take_of_length_le hcount
  have hsub : List.Sublist ((posts.filter (autoPublishEligible now)).map Post.id)
      (posts.map Post.id) :=
    (List.filter_sublist posts).map Post.id
  have hpendnd : ((posts.filter (autoPublishEligible now)).map Post.id).Nodup :=
    hids.sublist hsub
  have hfindall : ∀ q ∈ posts.filter (autoPublishEligible now),
      findPost posts q.id = Option.some q := by
    intro q hq
    exact findPost_eq_of_mem posts q hids (List.mem_of_mem_filter hq)
  have h1 : (processAutoPublish now posts).posts
      = posts.map (fun p =>
          if autoPublishEligible now p then autoPublishPatch now p else p) := by
    rw [processAutoPublish_eq, hpend]
    show (posts.filter (autoPublishEligible now)).foldl
        (fun ps q => autoPublishMutation now ps q.id) posts = _
    rw [fold_autoPublish now _ posts hids hpendnd hfindall]
    apply List.map_congr_left
    intro p hp
    by_cases he : autoPublishEligible now p = true
    · have hpmem : p ∈ posts.filter (autoPublishEligible now) :=
        List.mem_filter.mpr ⟨hp, he⟩
      have hpc : ((posts.filter (autoPublishEligible now)).map Post.id).contains p.id
          = true :=
        List.elem_eq_true_of_mem (List.mem_map_of_mem Post.id hpmem)
      have hguard : (p.status == PostStatus.needs_review && !p.isDeleted) = true := by
        simp only [autoPublishEligible, Bool.and_eq_true] at he
        simp [he.1.1, he.2]
      rw [if_pos (by simp only [hpc, hguard]; rfl), if_pos he]
    · have hpc : ((posts.filter (autoPublishEligible now)).map Post.id).contains p.id
          = false := by
        cases hc : ((posts.filter (autoPublishEligible now)).map Post.id).contains p.id with
        | false => rfl
        | true =>
          exfalso
          have hmem := List.mem_of_elem_eq_true hc
          rcases List.mem_map.mp hmem with ⟨q, hqf, hqid⟩
          have hqp : q = p := eq_of_mem_same_id posts q p hids
            (List.mem_of_mem_filter hqf) hp hqid
          have helig := (List.mem_filter.mp hqf).2
          rw [hqp] at helig
          exact he helig
      rw [if_neg (by simp only [hpc, Bool.false_and]; simp), if_neg he]
  refine ⟨h1, ?_⟩
  have hzero : (processAutoPublish now posts).posts.filter (autoPublishEligible now)
      = [] := by
    rw [h1]
    apply List.filter_eq_nil_iff.mpr
    intro r hr
    rcases List.mem_map.mp hr with ⟨p, hp, rfl⟩
    by_cases he : autoPublishEligible now p = true
    · rw [if_pos he]
      simp [autoPublishEligible, autoPublishPatch]
    · rw [if_neg he]
      simpa using he
  have hpend2 : getPendingAutoPublish now (processAutoPublish now posts).posts
      = [] := by
    unfold getPendingAutoPublish
    rw [hzero]
    rfl
  rw [processAutoPublish_eq now (processAutoPublish now posts).posts, hpend2]
  simp

/-- Posts table for the C3 witness: post 20 is past its deadline, post
21 has a future deadline, post 22 is soft-deleted. -/
def sweepDbW : List Post :=
  [samplePost,
   { samplePost with id := 21, reviewDeadline := 500 },
   { samplePost with id := 22, isDeleted := true }]

/-- Witness for C3 at time 200: only post 20 transitions, and the
immediate re-run transitions nothing. -/
theorem c3_witness :
    (processAutoPublish 200 sweepDbW).posts
        = sweepDbW.map (fun p =>
            if autoPublishEligible 200 p then autoPublishPatch 200 p else p)
    ∧ processAutoPublish 200 (processAutoPublish 200 sweepDbW).posts
        = { posts := (processAutoPublish 200 sweepDbW).posts
            notifications := []
            processed := 0 } :=
  c3_sweep_exactness sweepDbW 200 (by decide) (by decide)

end Molt
